import Mathlib

/-!
Shallow embedding of the number-assignment allocator and form machinery of
`src/app.py` (a Streamlit app backed by a remote row store), together with
theorems settling the specification claims about it.

Modelling conventions:
* a meeting pool is the list of its slot rows, in store order;
* the store `select ... eq(...)` is `List.filter` / `List.find?` on the row
  list, and `update ... eq("number", n)` is a `List.map` that patches every
  row whose `number` equals `n` (exactly what the remote update does);
* `random.choice(available_numbers)` is modelled by an arbitrary index
  `pick`, reduced modulo the length of the candidate list;
* timestamps are opaque naturals;
* each store operation returns its result together with the store state
  after the operation, so that "no row was written" is expressible.
-/

namespace PrePost

/-- One row of a meeting pool table: `number`, `assigned`, `assigned_at`,
`user_id` (`src/app.py` lines 66-74). -/
structure Slot where
  number : Nat
  assigned : Bool
  assignedAt : Option Nat
  userId : Option String
deriving Repr, DecidableEq

/-- A meeting pool: the rows of one per-meeting table, in store order. -/
abbrev Pool := List Slot

/-- Failure mode of the participant-mode allocation block. -/
inductive AllocError where
  | poolExhausted
deriving Repr, DecidableEq

/-- `select("number").eq("user_id", user_id)` followed by taking row 0:
the first slot bound to the given identity (`src/app.py` line 221). -/
def findOwned (pool : Pool) (uid : String) : Option Slot :=
  pool.find? (fun s => s.userId == some uid)

/-- `select("*").eq("assigned", False)` (`src/app.py` line 226). -/
def unassignedSlots (pool : Pool) : Pool :=
  pool.filter (fun s => !s.assigned)

/-- `update({assigned, assigned_at, user_id}).eq("number", n)`
(`src/app.py` lines 231-235): patches every row whose number is `n`. -/
def updateByNumber (pool : Pool) (n : Nat) (now : Nat) (uid : String) : Pool :=
  pool.map (fun s =>
    if s.number == n then
      { s with assigned := true, assignedAt := some now, userId := some uid }
    else s)

/-- The participant-mode allocation block (`src/app.py` lines 220-242):
look up an existing binding for the identity; otherwise pick a random
unassigned number, write the binding, and return it; fail with
`poolExhausted` when no unassigned row exists.  The second component is
the pool table after the operation. -/
def assignOrGet (pool : Pool) (uid : String) (pick now : Nat) :
    Except AllocError Nat × Pool :=
  match findOwned pool uid with
  | some s => (.ok s.number, pool)
  | none =>
    let response := unassignedSlots pool
    if response.isEmpty then
      (.error .poolExhausted, pool)
    else
      let availableNumbers := response.map (fun s => s.number)
      if availableNumbers.isEmpty then
        (.error .poolExhausted, pool)
      else
        let assignedNumber := availableNumbers.getD (pick % availableNumbers.length) 0
        (.ok assignedNumber, updateByNumber pool assignedNumber now uid)

/-- Number of rows still unassigned in a pool. -/
def countUnassigned (pool : Pool) : Nat :=
  (unassignedSlots pool).length

/-- The identity owns no slot in the pool. -/
def NotBound (pool : Pool) (uid : String) : Prop :=
  ∀ s ∈ pool, s.userId ≠ some uid

/-- Well-formedness of a pool as established by pool creation and preserved
by the allocator: slot numbers are pairwise distinct, and every row with a
bound identity is marked assigned. -/
def WellFormed (pool : Pool) : Prop :=
  (pool.map Slot.number).Nodup ∧ ∀ s ∈ pool, s.userId ≠ none → s.assigned = true

/-- Running the allocator once for each call of a list, sequentially, with
the pool threaded through; stops at the first failure. -/
def allocSeq : Pool → List (String × Nat × Nat) → Except AllocError Pool
  | pool, [] => .ok pool
  | pool, c :: rest =>
    match assignOrGet pool c.1 c.2.1 c.2.2 with
    | (.ok _, pool2) => allocSeq pool2 rest
    | (.error e, _) => .error e

/-- A freshly inserted slot row
(`src/app.py` line 84: number `j`, unassigned, null timestamp and identity). -/
def freshSlot (j : Nat) : Slot :=
  ⟨j, false, none, none⟩

/-- One batch insert of pool creation (`src/app.py` lines 83-86): the rows
for the numbers `i+1 .. endN`, where `endN = min (i + batch_size) max_number`. -/
def batchRows (i endN : Nat) : List Slot :=
  (List.range' (i + 1) (endN - i)).map freshSlot

/-- The batch loop `for i in range(0, max_number, batch_size)`
(`src/app.py` lines 82-86), unrolled from index `i`.  For a zero batch size
the Python `range` would be invalid; the model returns no rows. -/
def createPoolRowsAux (maxNumber batchSize i : Nat) : List Slot :=
  if hlt : i < maxNumber ∧ 0 < batchSize then
    batchRows i (min (i + batchSize) maxNumber) ++
      createPoolRowsAux maxNumber batchSize (i + batchSize)
  else []
termination_by maxNumber - i
decreasing_by omega

/-- All slot rows inserted by pool creation for a new meeting table
(`src/app.py` lines 81-86; the code fixes `batch_size = 100`). -/
def createPoolRows (maxNumber batchSize : Nat) : List Slot :=
  createPoolRowsAux maxNumber batchSize 0

/-- A row of `meetings_metadata` (`src/app.py` lines 58-63). -/
structure MeetingMeta where
  id : Nat
  tableName : String
  meetingName : String
  createdAt : Nat
  maxNumber : Nat
deriving Repr, DecidableEq

/-- The store state touched by `create_meeting_table`: the metadata table,
the per-meeting pool tables keyed by name, and the `meeting_forms` links. -/
structure DB where
  meetingsMetadata : List MeetingMeta
  tables : List (String × Pool)
  meetingForms : List (Nat × Nat)
deriving Repr, DecidableEq

/-- The individual store calls issued by `create_meeting_table`. -/
inductive Op where
  | insertMetadata
  | createTable
  | checkTable
  | insertBatch (i : Nat)
  | insertMeetingForm (formId : Nat)
  | deleteMetadata (tableName : String)
  | dropTable (tableName : String)
deriving Repr, DecidableEq

/-- Execution state threaded through `create_meeting_table`: the store, a
running operation counter (consulted by the failure oracle), the trace of
attempted store calls, and the count of error messages rendered. -/
structure Exec where
  db : DB
  opIdx : Nat
  trace : List Op
  errors : Nat
deriving Repr, DecidableEq

/-- Issue one store call.  The oracle decides whether the remote call
raises; on success the effect is applied to the store. -/
def runOp (oracle : Nat → Bool) (e : Exec) (op : Op) (eff : DB → DB) : Exec × Bool :=
  let ok := !(oracle e.opIdx)
  ({ e with db := if ok then eff e.db else e.db,
            opIdx := e.opIdx + 1,
            trace := e.trace ++ [op] }, ok)

def dbHasTable (db : DB) (tableName : String) : Bool :=
  (db.tables.find? (fun t => t.1 == tableName)).isSome

def dbInsertRows (db : DB) (tableName : String) (rows : List Slot) : DB :=
  { db with tables := db.tables.map (fun t =>
      if t.1 == tableName then (t.1, t.2 ++ rows) else t) }

/-- `check_table_exists` (`src/app.py` lines 47-53): a probing select that
reports false either when the probe raises or the table is absent. -/
def runCheck (oracle : Nat → Bool) (e : Exec) (tableName : String) : Exec × Bool :=
  let ok := !(oracle e.opIdx) && dbHasTable e.db tableName
  ({ e with opIdx := e.opIdx + 1, trace := e.trace ++ [Op.checkTable] }, ok)

def insertMetadataEff (tableName meetingName : String)
    (createdAt maxNumber meetingId : Nat) : DB → DB :=
  fun d => { d with meetingsMetadata :=
      d.meetingsMetadata ++ [⟨meetingId, tableName, meetingName, createdAt, maxNumber⟩] }

def createTableEff (tableName : String) : DB → DB :=
  fun d => { d with tables := d.tables ++ [(tableName, [])] }

def insertBatchEff (tableName : String) (rows : List Slot) : DB → DB :=
  fun d => dbInsertRows d tableName rows

def insertFormEff (meetingId fid : Nat) : DB → DB :=
  fun d => { d with meetingForms := d.meetingForms ++ [(meetingId, fid)] }

def deleteMetadataEff (tableName : String) : DB → DB :=
  fun d => { d with meetingsMetadata :=
      d.meetingsMetadata.filter (fun m => !(m.tableName == tableName)) }

def dropTableEff (tableName : String) : DB → DB :=
  fun d => { d with tables := d.tables.filter (fun t => !(t.1 == tableName)) }

/-- The index sequence of the batch loop, `range(0, max_number, batch_size)`
(`src/app.py` line 82); empty for a zero step, where Python would raise. -/
def batchStarts (maxNumber batchSize : Nat) : List Nat :=
  (List.range ((maxNumber + batchSize - 1) / batchSize)).map (fun j => j * batchSize)

/-- The batch-insert loop of pool creation (`src/app.py` lines 82-86) with a
failure oracle, iterating over the remaining batch start indices: stops at
the first raising insert. -/
def insertBatchesAux (oracle : Nat → Bool) (tableName : String)
    (maxNumber batchSize : Nat) : List Nat → Exec → Exec × Bool
  | [], e => (e, true)
  | i :: rest, e =>
    match runOp oracle e (Op.insertBatch i)
        (insertBatchEff tableName (batchRows i (min (i + batchSize) maxNumber))) with
    | (e2, true) => insertBatchesAux oracle tableName maxNumber batchSize rest e2
    | (e2, false) => (e2, false)

/-- The `meeting_forms` insert loop (`src/app.py` lines 88-93). -/
def insertFormsAux (oracle : Nat → Bool) (meetingId : Nat) :
    List Nat → Exec → Exec × Bool
  | [], e => (e, true)
  | fid :: rest, e =>
    match runOp oracle e (Op.insertMeetingForm fid) (insertFormEff meetingId fid) with
    | (e2, true) => insertFormsAux oracle meetingId rest e2
    | (e2, false) => (e2, false)

/-- The except-branch of `create_meeting_table` (`src/app.py` lines 96-103):
render the error, then best-effort delete of the metadata row followed by a
drop of the pool table inside one nested try (a raising delete skips the
drop and renders a second error). -/
def rollback (oracle : Nat → Bool) (tableName : String) (e : Exec) : Exec :=
  match runOp oracle { e with errors := e.errors + 1 }
      (Op.deleteMetadata tableName) (deleteMetadataEff tableName) with
  | (e1, true) => (runOp oracle e1 (Op.dropTable tableName) (dropTableEff tableName)).1
  | (e1, false) => { e1 with errors := e1.errors + 1 }

/-- `create_meeting_table` (`src/app.py` lines 55-103): insert the metadata
row, create the pool table, probe it, insert the slot rows in batches, link
the selected forms; any raising step diverts to the rollback branch and the
function reports failure.  The store-assigned meeting id is the parameter
`meetingId`. -/
def createMeetingTable (oracle : Nat → Bool) (db : DB) (tableName meetingName : String)
    (createdAt maxNumber batchSize meetingId : Nat) (selectedForms : List Nat) :
    Bool × Exec :=
  let r1 := runOp oracle ⟨db, 0, [], 0⟩ Op.insertMetadata
      (insertMetadataEff tableName meetingName createdAt maxNumber meetingId)
  if r1.2 then
    let r2 := runOp oracle r1.1 Op.createTable (createTableEff tableName)
    if r2.2 then
      let r3 := runCheck oracle r2.1 tableName
      if r3.2 then
        let r4 := insertBatchesAux oracle tableName maxNumber batchSize
          (batchStarts maxNumber batchSize) r3.1
        if r4.2 then
          let r5 := insertFormsAux oracle meetingId selectedForms r4.1
          if r5.2 then (true, r5.1)
          else (false, rollback oracle tableName r5.1)
        else (false, rollback oracle tableName r4.1)
      else (false, rollback oracle tableName r3.1)
    else (false, rollback oracle tableName r2.1)
  else (false, rollback oracle tableName r1.1)

/-- A row of `forms_metadata` (`src/app.py` line 689). -/
structure FormMeta where
  id : Nat
  formName : String
  tableName : String
  createdAt : Nat
deriving Repr, DecidableEq

/-- The two `question_type` values used by the app. -/
inductive QType where
  | text
  | multipleChoice
deriving Repr, DecidableEq

/-- A row of `questions` (`src/app.py` lines 694-700). -/
structure Question where
  id : Nat
  questionText : String
  questionType : QType
  correctAnswer : Option String
deriving Repr, DecidableEq

/-- A row of `options` (`src/app.py` line 705). -/
structure OptionRow where
  id : Nat
  questionId : Nat
  optionText : String
deriving Repr, DecidableEq

/-- A row of `responses` (`src/app.py` lines 339-344). -/
structure ResponseRow where
  formId : Nat
  participantId : String
  questionId : Nat
  answer : String
deriving Repr, DecidableEq

/-- A value of the in-memory `responses` dict of the submission form
(`src/app.py` lines 320-333): the typed text for a text question, or the
selected option id (if any) for a multiple-choice question. -/
inductive AnswerVal where
  | text (s : String)
  | choice (oid : Option Nat)
deriving Repr, DecidableEq

/-- Python truthiness of a response value, as tested by
`all(responses.values())` (`src/app.py` line 337): the empty string, `None`
and the integer 0 are falsy. -/
def truthy : AnswerVal → Bool
  | .text s => !(s == "")
  | .choice none => false
  | .choice (some oid) => !(oid == 0)

/-- `str(answer)` as stored in the `answer` column (`src/app.py` line 343). -/
def answerStr : AnswerVal → String
  | .text s => s
  | .choice (some oid) => toString oid
  | .choice none => "None"

/-- The `responses` dict built question by question
(`src/app.py` lines 320-333), keyed by question id in question order. -/
def buildResponses (questions : List Question) (textInput : Nat → String)
    (choiceInput : Nat → Option Nat) : List (Nat × AnswerVal) :=
  questions.map (fun q =>
    (q.id, match q.questionType with
      | .text => AnswerVal.text (textInput q.id)
      | .multipleChoice => AnswerVal.choice (choiceInput q.id)))

/-- Rows of a named pool table; a missing table yields no rows. -/
def lookupTable (tables : List (String × Pool)) (name : String) : Pool :=
  match tables.find? (fun t => t.1 == name) with
  | some t => t.2
  | none => []

/-- The identity-to-number lookup of participant_form mode
(`src/app.py` lines 299-307): scan the meetings in catalog order and take,
from the first pool holding a row bound to the session identity, the
stringified number as `participant_id` together with that meeting table
name. -/
def lookupParticipantId (meetings : List MeetingMeta) (tables : List (String × Pool))
    (uid : String) : Option (String × String) :=
  match meetings with
  | [] => none
  | m :: rest =>
    match (lookupTable tables m.tableName).find? (fun s => s.userId == some uid) with
    | some s => some (toString s.number, m.tableName)
    | none => lookupParticipantId rest tables uid

/-- `get_answered_forms` (`src/app.py` lines 136-143) on a successful query:
the form ids of the response rows recorded under a participant id. -/
def getAnsweredForms (responses : List ResponseRow) (participantId : String) : List Nat :=
  (responses.filter (fun r => r.participantId == participantId)).map (fun r => r.formId)

/-- Outcome of a submission attempt in participant_form mode. -/
inductive SubmitResult where
  | success (count : Nat)
  | alreadySubmitted
  | unauthorized
  | validationError
deriving Repr, DecidableEq

/-- The submission callback once a participant id is bound
(`src/app.py` lines 314-356): refuse a second submission for an already
answered form, validate that every response value is truthy, then insert one
response row per question. -/
def submitFormAuth (responses : List ResponseRow) (participantId : String)
    (formId : Nat) (questions : List Question) (textInput : Nat → String)
    (choiceInput : Nat → Option Nat) : SubmitResult × List ResponseRow :=
  if formId ∈ getAnsweredForms responses participantId then
    (.alreadySubmitted, responses)
  else
    let resps := buildResponses questions textInput choiceInput
    if resps.all (fun r => truthy r.2) then
      (.success resps.length,
        responses ++ resps.map (fun r => ⟨formId, participantId, r.1, answerStr r.2⟩))
    else
      (.validationError, responses)

/-- The participant_form flow (`src/app.py` lines 299-356): resolve the
session identity to an assigned number across all pools; without one the
submission is refused as unauthorized. -/
def submitForm (meetings : List MeetingMeta) (tables : List (String × Pool))
    (responses : List ResponseRow) (uid : String) (formId : Nat)
    (questions : List Question) (textInput : Nat → String)
    (choiceInput : Nat → Option Nat) : SubmitResult × List ResponseRow :=
  match lookupParticipantId meetings tables uid with
  | none => (.unauthorized, responses)
  | some (participantId, _) =>
    submitFormAuth responses participantId formId questions textInput choiceInput

/-- The option-insert loop for one created question
(`src/app.py` lines 703-708): every option row receives the next store id,
and inserting an option equal to the drafted correct text overwrites the
question row with `correct_answer = str(option id)`. -/
def insertOptions (qid : Nat) (correct : Option String) :
    List String → Nat → Question → List OptionRow → Question × List OptionRow × Nat
  | [], nextOid, q, acc => (q, acc, nextOid)
  | opt :: rest, nextOid, q, acc =>
    let q2 := if some opt == correct then
        { q with correctAnswer := some (toString nextOid) }
      else q
    insertOptions qid correct rest (nextOid + 1) q2 (acc ++ [⟨nextOid, qid, opt⟩])

/-- A drafted question of the form-authoring state
(`src/app.py` lines 612-617). -/
structure DraftQuestion where
  qtype : QType
  text : String
  options : List String
  correct : Option String
deriving Repr, DecidableEq

/-- The question-insert loop of form creation (`src/app.py` lines 693-708),
with store-assigned sequential ids for questions and options. -/
def createFormQuestions : List DraftQuestion → Nat → Nat → List Question × List OptionRow
  | [], _, _ => ([], [])
  | d :: rest, nextQid, nextOid =>
    let q0 : Question := ⟨nextQid, d.text, d.qtype, d.correct⟩
    let step :=
      if d.qtype == QType.multipleChoice && !d.options.isEmpty then
        insertOptions nextQid d.correct d.options nextOid q0 []
      else (q0, [], nextOid)
    let qs := createFormQuestions rest (nextQid + 1) step.2.2
    (step.1 :: qs.1, step.2.1 ++ qs.2)

/-- The row the statistics view reads with `.data[0]` for a response; the
code assumes the question row exists. -/
def defaultQuestion : Question :=
  ⟨0, "", QType.text, none⟩

/-- Python truthiness of the stored `correct_answer`
(`if question["correct_answer"]:`, `src/app.py` lines 551-553). -/
def correctTruthy : Option String → Bool
  | none => false
  | some s => !(s == "")

/-- Grading of one response row in the statistics view
(`src/app.py` lines 542-561): the pair of the displayed answer and the
"Correta" cell. -/
def gradeResponse (questions : List Question) (optionRows : List OptionRow)
    (resp : ResponseRow) : String × String :=
  let question := (questions.find? (fun q => q.id == resp.questionId)).getD defaultQuestion
  match question.questionType with
  | QType.multipleChoice =>
    let optionRow := optionRows.find? (fun o => toString o.id == resp.answer)
    let answerDisplay :=
      match optionRow with
      | some o => o.optionText
      | none => resp.answer
    match question.correctAnswer with
    | some c =>
      if !(c == "") then
        (answerDisplay, if resp.answer == c then "✅ Correta" else "❌ Incorreta")
      else (answerDisplay, "N/A")
    | none => (answerDisplay, "N/A")
  | QType.text =>
    match question.correctAnswer with
    | some c =>
      if !(c == "") then
        (resp.answer,
          if resp.answer.toLower == c.toLower then "✅ Correta" else "❌ Incorreta")
      else (resp.answer, "N/A")
    | none => (resp.answer, "N/A")

/-- `get_available_meetings` (`src/app.py` lines 105-112) with the query
outcome abstracted: the rows on success, the empty list both on zero rows
and on a raising query, the latter with a rendered error message. -/
def getAvailableMeetings (q : Except String (List MeetingMeta)) :
    List MeetingMeta × List String :=
  match q with
  | .ok rows => (if rows.isEmpty then [] else rows, [])
  | .error msg => ([], ["Erro ao recuperar reuniões: " ++ msg])

/-- `get_available_forms` (`src/app.py` lines 114-121). -/
def getAvailableForms (q : Except String (List FormMeta)) :
    List FormMeta × List String :=
  match q with
  | .ok rows => (if rows.isEmpty then [] else rows, [])
  | .error msg => ([], ["Erro ao recuperar formulários: " ++ msg])

/-- `get_forms_for_meeting` (`src/app.py` lines 123-134): the link query
followed, when some link exists, by the forms query over the collected ids;
a raise in either query yields the empty list plus a message. -/
def getFormsForMeeting (q1 : Except String (List Nat))
    (q2 : List Nat → Except String (List FormMeta)) :
    List FormMeta × List String :=
  match q1 with
  | .error msg => ([], ["Erro ao recuperar formulários da reunião: " ++ msg])
  | .ok formIds =>
    if formIds.isEmpty then ([], [])
    else
      match q2 formIds with
      | .error msg => ([], ["Erro ao recuperar formulários da reunião: " ++ msg])
      | .ok forms => (if forms.isEmpty then [] else forms, [])

/-- `get_answered_forms` (`src/app.py` lines 136-143) with the query outcome
abstracted, as called by the catalog surfaces: the recorded form ids on
success, the empty collection both on zero rows and on a raising query. -/
def getAnsweredFormsQuery (q : Except String (List Nat)) : List Nat × List String :=
  match q with
  | .ok rows => (if rows.isEmpty then [] else rows, [])
  | .error msg => ([], ["Erro ao verificar formulários respondidos: " ++ msg])

theorem findOwned_eq_none_iff (pool : Pool) (uid : String) :
    findOwned pool uid = none ↔ NotBound pool uid := by
  rw [findOwned, List.find?_eq_none, NotBound]
  constructor
  · intro h s hs
    have := h s hs
    simpa using this
  · intro h s hs
    simpa using h s hs

theorem map_number_updateByNumber (pool : Pool) (n now : Nat) (uid : String) :
    (updateByNumber pool n now uid).map Slot.number = pool.map Slot.number := by
  rw [updateByNumber, List.map_map]
  apply List.map_congr_left
  intro s _
  by_cases h : s.number = n <;> simp [h]

theorem updateByNumber_eq_of_not_mem (pool : Pool) (n now : Nat) (uid : String)
    (h : ∀ s ∈ pool, s.number ≠ n) :
    updateByNumber pool n now uid = pool := by
  rw [updateByNumber]
  conv_rhs => rw [← List.map_id pool]
  apply List.map_congr_left
  intro s hs
  simp [h s hs]

theorem countUnassigned_cons (s : Slot) (pool : Pool) :
    countUnassigned (s :: pool) =
      (if s.assigned = false then 1 else 0) + countUnassigned pool := by
  by_cases h : s.assigned <;>
    simp [countUnassigned, unassignedSlots, List.filter_cons, h, Nat.add_comm]

theorem countUnassigned_pos_of_mem (pool : Pool) (s : Slot)
    (hs : s ∈ pool) (ha : s.assigned = false) : 0 < countUnassigned pool := by
  have : s ∈ unassignedSlots pool := by
    rw [unassignedSlots, List.mem_filter]
    exact ⟨hs, by simp [ha]⟩
  exact List.length_pos.mpr (List.ne_nil_of_mem this)

theorem countUnassigned_updateByNumber (pool : Pool) (n now : Nat) (uid : String)
    (hnodup : (pool.map Slot.number).Nodup)
    (s0 : Slot) (hs0 : s0 ∈ pool) (hn : s0.number = n) (ha : s0.assigned = false) :
    countUnassigned (updateByNumber pool n now uid) = countUnassigned pool - 1 := by
  induction pool with
  | nil => cases hs0
  | cons s rest ih =>
    rw [List.map_cons, List.nodup_cons] at hnodup
    rcases List.mem_cons.mp hs0 with h0 | h0
    · subst h0
      have hrest : ∀ t ∈ rest, t.number ≠ n := by
        intro t ht hc
        apply hnodup.1
        rw [hn, ← hc]
        exact List.mem_map_of_mem Slot.number ht
      rw [updateByNumber, List.map_cons, ← updateByNumber]
      rw [updateByNumber_eq_of_not_mem rest n now uid hrest]
      rw [countUnassigned_cons, countUnassigned_cons]
      simp [hn, ha]
    · have hne : s.number ≠ n := by
        intro hc
        apply hnodup.1
        rw [hc, ← hn]
        exact List.mem_map_of_mem Slot.number h0
      have hpos : 0 < countUnassigned rest := countUnassigned_pos_of_mem rest s0 h0 ha
      have hhead : updateByNumber (s :: rest) n now uid =
          s :: updateByNumber rest n now uid := by
        simp [updateByNumber, hne]
      rw [hhead, countUnassigned_cons, countUnassigned_cons, ih hnodup.2 h0]
      by_cases hsa : s.assigned = false
      · simp only [if_pos hsa]; omega
      · simp only [if_neg hsa]; omega

/-- Anatomy of a successful fresh allocation: the identity owned nothing,
some unassigned slot provided the returned number, and the resulting pool is
the corresponding update. -/
theorem assignOrGet_fresh_spec (pool : Pool) (uid : String) (pick now : Nat)
    (n : Nat) (pool2 : Pool)
    (hf : findOwned pool uid = none)
    (h : assignOrGet pool uid pick now = (.ok n, pool2)) :
    (∃ s ∈ pool, s.assigned = false ∧ s.number = n) ∧
      pool2 = updateByNumber pool n now uid := by
  rw [assignOrGet, hf] at h
  by_cases hemp : (unassignedSlots pool).isEmpty
  · simp [hemp] at h
  · have hlen : 0 < ((unassignedSlots pool).map (fun s => s.number)).length := by
      simp [List.length_pos]
      exact fun hc => hemp (by simp [hc])
    have hmemp : ¬ ((unassignedSlots pool).map (fun s => s.number)).isEmpty := by
      rw [List.isEmpty_iff_length_eq_zero]
      omega
    simp only [hemp, if_false, hmemp, if_false] at h
    set avail := (unassignedSlots pool).map (fun s => s.number) with havail
    have hget : avail.getD (pick % avail.length) 0 ∈ avail := by
      have hidx : pick % avail.length < avail.length := Nat.mod_lt _ hlen
      rw [List.getD_eq_getElem?_getD, List.getElem?_eq_getElem hidx]
      exact List.getElem_mem hidx
    obtain ⟨hn, hpool⟩ := Prod.mk.injEq .. ▸ h
    have hn2 : avail.getD (pick % avail.length) 0 = n := by
      cases hn; rfl
    rw [hn2] at hget
    rw [havail, List.mem_map] at hget
    obtain ⟨s, hs, hsn⟩ := hget
    rw [unassignedSlots, List.mem_filter] at hs
    refine ⟨⟨s, hs.1, by simpa using hs.2, hsn⟩, ?_⟩
    rw [← hpool, hn2]

/-- A fresh allocation succeeds as soon as an unassigned slot exists. -/
theorem assignOrGet_fresh_ok (pool : Pool) (uid : String) (pick now : Nat)
    (hf : findOwned pool uid = none)
    (hpos : 0 < countUnassigned pool) :
    ∃ n, assignOrGet pool uid pick now = (.ok n, updateByNumber pool n now uid) := by
  have hemp : ¬ (unassignedSlots pool).isEmpty := by
    rw [List.isEmpty_iff_length_eq_zero]
    rw [countUnassigned] at hpos
    omega
  have hcase : ∃ n pool2, assignOrGet pool uid pick now = (.ok n, pool2) := by
    rw [assignOrGet, hf]
    have hmemp : ¬ ((unassignedSlots pool).map (fun s => s.number)).isEmpty := by
      rw [List.isEmpty_iff_length_eq_zero]
      simp only [List.length_map]
      rw [countUnassigned] at hpos
      omega
    simp only [hemp, if_false, hmemp, if_false]
    exact ⟨_, _, rfl⟩
  obtain ⟨n, pool2, hok⟩ := hcase
  obtain ⟨_, hpool⟩ := assignOrGet_fresh_spec pool uid pick now n pool2 hf hok
  exact ⟨n, by rw [hok, hpool]⟩

theorem findOwned_some {pool : Pool} {uid : String} {s : Slot}
    (h : findOwned pool uid = some s) : s ∈ pool ∧ s.userId = some uid := by
  refine ⟨List.mem_of_find?_eq_some h, ?_⟩
  have hp := List.find?_some h
  simpa using hp

theorem mem_updateByNumber_elim {pool : Pool} {n now : Nat} {uid : String} {s2 : Slot}
    (h : s2 ∈ updateByNumber pool n now uid) :
    (s2.number = n ∧ s2.userId = some uid ∧ s2.assigned = true) ∨
      (s2.number ≠ n ∧ s2 ∈ pool) := by
  rw [updateByNumber, List.mem_map] at h
  obtain ⟨s, hs, heq⟩ := h
  by_cases hc : s.number = n
  · left
    rw [if_pos (by simpa using hc)] at heq
    rw [← heq]
    exact ⟨hc, rfl, rfl⟩
  · right
    rw [if_neg (by simpa using hc)] at heq
    rw [← heq]
    exact ⟨hc, hs⟩

theorem notBound_updateByNumber {pool : Pool} {n now : Nat} {uid v : String}
    (hv : v ≠ uid) (h : NotBound pool v) :
    NotBound (updateByNumber pool n now uid) v := by
  intro s2 hs2
  rcases mem_updateByNumber_elim hs2 with ⟨_, hu, _⟩ | ⟨_, hmem⟩
  · rw [hu]
    intro hc
    exact hv (by injection hc with h2; exact h2.symm)
  · exact h s2 hmem

/-- The allocator preserves well-formedness of the pool. -/
theorem wellFormed_assignOrGet {pool pool2 : Pool} {uid : String} {pick now : Nat}
    {r : Except AllocError Nat}
    (hwf : WellFormed pool) (h : assignOrGet pool uid pick now = (r, pool2)) :
    WellFormed pool2 := by
  rcases hf : findOwned pool uid with _ | s
  · rcases hr : r with e | n
    · rw [assignOrGet, hf] at h
      by_cases hemp : (unassignedSlots pool).isEmpty
      · rw [if_pos hemp] at h
        cases h
        exact hwf
      · by_cases hemp2 : ((unassignedSlots pool).map (fun s => s.number)).isEmpty
        · simp only [if_neg hemp, if_pos hemp2] at h
          cases h
          exact hwf
        · simp only [if_neg hemp, if_neg hemp2] at h
          rw [hr] at h
          cases h
    · rw [hr] at h
      obtain ⟨_, hpool⟩ := assignOrGet_fresh_spec pool uid pick now n pool2 hf h
      subst hpool
      constructor
      · rw [map_number_updateByNumber]
        exact hwf.1
      · intro s2 hs2 hu
        rcases mem_updateByNumber_elim hs2 with ⟨_, _, ha⟩ | ⟨_, hmem⟩
        · exact ha
        · exact hwf.2 s2 hmem hu
  · rw [assignOrGet, hf] at h
    cases h
    exact hwf

/-- Unrolling the batch loop from index `i` yields exactly the rows for the
numbers `i+1 .. maxNumber`. -/
theorem createPoolRowsAux_eq (maxNumber batchSize : Nat) (hb : 0 < batchSize) :
    ∀ i, createPoolRowsAux maxNumber batchSize i =
      (List.range' (i + 1) (maxNumber - i)).map freshSlot := by
  have H : ∀ d i, maxNumber - i ≤ d →
      createPoolRowsAux maxNumber batchSize i =
        (List.range' (i + 1) (maxNumber - i)).map freshSlot := by
    intro d
    induction d with
    | zero =>
      intro i hd
      rw [createPoolRowsAux]
      have hneg : ¬ (i < maxNumber ∧ 0 < batchSize) := by omega
      rw [dif_neg hneg]
      have h0 : maxNumber - i = 0 := by omega
      rw [h0]
      rfl
    | succ d ih =>
      intro i hd
      rw [createPoolRowsAux]
      by_cases h : i < maxNumber ∧ 0 < batchSize
      · rw [dif_pos h]
        rw [ih (i + batchSize) (by omega)]
        rw [batchRows, ← List.map_append]
        congr 1
        by_cases hcase : i + batchSize ≤ maxNumber
        · rw [Nat.min_eq_left hcase]
          have happ := List.range'_append (i + 1) batchSize (maxNumber - (i + batchSize)) 1
          have h1 : i + batchSize - i = batchSize := by omega
          have h2 : i + 1 + 1 * batchSize = i + batchSize + 1 := by omega
          have h3 : maxNumber - (i + batchSize) + batchSize = maxNumber - i := by omega
          rw [h1]
          rw [h2, h3] at happ
          exact happ
        · have hmin : min (i + batchSize) maxNumber = maxNumber := by omega
          rw [hmin]
          have h0 : maxNumber - (i + batchSize) = 0 := by omega
          rw [h0]
          simp
      · rw [dif_neg h]
        have h0 : maxNumber - i = 0 := by omega
        rw [h0]
        rfl
  exact fun i => H (maxNumber - i) i le_rfl

theorem createPoolRows_eq (maxNumber batchSize : Nat) (hb : 0 < batchSize) :
    createPoolRows maxNumber batchSize = (List.range' 1 maxNumber).map freshSlot := by
  rw [createPoolRows, createPoolRowsAux_eq maxNumber batchSize hb 0]
  norm_num

theorem number_comp_freshSlot : Slot.number ∘ freshSlot = id := by
  funext j
  rfl

/-- With no unassigned row and no binding for the identity, the allocator
fails with pool exhaustion and writes nothing. -/
theorem assignOrGet_exhausted (pool : Pool) (uid : String) (pick now : Nat)
    (hf : findOwned pool uid = none) (hemp : countUnassigned pool = 0) :
    assignOrGet pool uid pick now = (.error .poolExhausted, pool) := by
  have h0 : (unassignedSlots pool).isEmpty := by
    rw [List.isEmpty_iff_length_eq_zero]
    exact hemp
  simp only [assignOrGet, hf, h0, if_true]

theorem countUnassigned_createPoolRows (maxNumber batchSize : Nat)
    (hb : 0 < batchSize) :
    countUnassigned (createPoolRows maxNumber batchSize) = maxNumber := by
  rw [countUnassigned, createPoolRows_eq maxNumber batchSize hb]
  have hall : unassignedSlots ((List.range' 1 maxNumber).map freshSlot) =
      (List.range' 1 maxNumber).map freshSlot := by
    rw [unassignedSlots, List.filter_eq_self]
    intro s hs
    rw [List.mem_map] at hs
    obtain ⟨j, _, hj⟩ := hs
    rw [← hj]
    rfl
  rw [hall]
  simp

theorem notBound_createPoolRows (maxNumber batchSize : Nat) (uid : String) :
    NotBound (createPoolRows maxNumber batchSize) uid := by
  intro s hs
  by_cases hb : 0 < batchSize
  · rw [createPoolRows_eq maxNumber batchSize hb, List.mem_map] at hs
    obtain ⟨j, _, hj⟩ := hs
    rw [← hj]
    exact fun hc => by cases hc
  · exfalso
    have hb0 : batchSize = 0 := by omega
    subst hb0
    rw [createPoolRows, createPoolRowsAux] at hs
    simp at hs

/-- Running the allocator once for each of a list of pairwise-distinct fresh
identities succeeds throughout when the pool has enough unassigned rows,
consumes exactly one unassigned row per call, and binds no other identity. -/
theorem allocSeq_spec (calls : List (String × Nat × Nat)) :
    ∀ (pool : Pool),
      (pool.map Slot.number).Nodup →
      (calls.map Prod.fst).Nodup →
      (∀ uid ∈ calls.map Prod.fst, NotBound pool uid) →
      calls.length ≤ countUnassigned pool →
      ∃ pool2, allocSeq pool calls = .ok pool2 ∧
        countUnassigned pool2 = countUnassigned pool - calls.length ∧
        (pool2.map Slot.number).Nodup ∧
        ∀ v, v ∉ calls.map Prod.fst → NotBound pool v → NotBound pool2 v := by
  induction calls with
  | nil =>
    intro pool h1 _ _ _
    exact ⟨pool, rfl, by simp, h1, fun v _ hv => hv⟩
  | cons c rest ih =>
    intro pool hnodup hidnodup hnb hlen
    obtain ⟨uid, pick, now⟩ := c
    rw [List.map_cons, List.nodup_cons] at hidnodup
    have hf : findOwned pool uid = none :=
      (findOwned_eq_none_iff pool uid).mpr (hnb uid (by simp))
    have hpos : 0 < countUnassigned pool := by
      simp only [List.length_cons] at hlen
      omega
    obtain ⟨n, hok⟩ := assignOrGet_fresh_ok pool uid pick now hf hpos
    obtain ⟨⟨s0, hs0, hs0a, hs0n⟩, _⟩ :=
      assignOrGet_fresh_spec pool uid pick now n _ hf hok
    have hcount : countUnassigned (updateByNumber pool n now uid) =
        countUnassigned pool - 1 :=
      countUnassigned_updateByNumber pool n now uid hnodup s0 hs0 hs0n hs0a
    have hnodup1 : ((updateByNumber pool n now uid).map Slot.number).Nodup := by
      rw [map_number_updateByNumber]
      exact hnodup
    have hnb1 : ∀ v ∈ rest.map Prod.fst, NotBound (updateByNumber pool n now uid) v := by
      intro v hv
      have hvne : v ≠ uid := fun hc => hidnodup.1 (hc ▸ hv)
      exact notBound_updateByNumber hvne (hnb v (by simp [hv]))
    have hlen1 : rest.length ≤ countUnassigned (updateByNumber pool n now uid) := by
      rw [hcount]
      simp only [List.length_cons] at hlen
      omega
    obtain ⟨pool2, hseq, hc2, hn2, hnb2⟩ :=
      ih (updateByNumber pool n now uid) hnodup1 hidnodup.2 hnb1 hlen1
    refine ⟨pool2, ?_, ?_, hn2, ?_⟩
    · simp only [allocSeq]
      rw [hok]
      exact hseq
    · rw [hc2, hcount]
      simp only [List.length_cons]
      omega
    · intro v hv hnbv
      have hvne : v ≠ uid := by
        intro hc
        subst hc
        exact hv (by simp)
      exact hnb2 v (fun hc => hv (by simp [hc]))
        (notBound_updateByNumber hvne hnbv)

theorem runOp_eq {oracle : Nat → Bool} {e : Exec} {op : Op} {eff : DB → DB}
    {e2 : Exec} {ok : Bool} (h : runOp oracle e op eff = (e2, ok)) :
    e2.opIdx = e.opIdx + 1 ∧ e2.errors = e.errors ∧ e2.trace = e.trace ++ [op] ∧
    (ok = true → oracle e.opIdx = false) := by
  simp only [runOp] at h
  obtain ⟨he, hok⟩ := Prod.mk.injEq .. ▸ h
  rw [← he]
  refine ⟨rfl, rfl, rfl, ?_⟩
  intro hk
  rw [← hok] at hk
  simpa using hk

theorem runOp_meetingForms {oracle : Nat → Bool} {e : Exec} {op : Op} {eff : DB → DB}
    {e2 : Exec} {ok : Bool}
    (heff : ∀ d : DB, (eff d).meetingForms = d.meetingForms)
    (h : runOp oracle e op eff = (e2, ok)) :
    e2.db.meetingForms = e.db.meetingForms := by
  simp only [runOp] at h
  obtain ⟨he, _⟩ := Prod.mk.injEq .. ▸ h
  rw [← he]
  by_cases ho : oracle e.opIdx <;> simp [ho, heff]

theorem runCheck_eq {oracle : Nat → Bool} {e : Exec} {tableName : String}
    {e2 : Exec} {ok : Bool} (h : runCheck oracle e tableName = (e2, ok)) :
    e2.opIdx = e.opIdx + 1 ∧ e2.errors = e.errors ∧ e2.db = e.db ∧
    (ok = true → oracle e.opIdx = false) := by
  simp only [runCheck] at h
  obtain ⟨he, hok⟩ := Prod.mk.injEq .. ▸ h
  rw [← he]
  refine ⟨rfl, rfl, rfl, ?_⟩
  intro hk
  rw [← hok] at hk
  rcases Bool.and_eq_true .. |>.mp hk with ⟨h1, _⟩
  simpa using h1

theorem insertBatchesAux_spec (oracle : Nat → Bool) (tableName : String)
    (maxNumber batchSize : Nat) :
    ∀ (starts : List Nat) (e e2 : Exec) (ok : Bool),
      insertBatchesAux oracle tableName maxNumber batchSize starts e = (e2, ok) →
      e.opIdx ≤ e2.opIdx ∧ e2.errors = e.errors ∧
      (ok = true → ∀ k, e.opIdx ≤ k → k < e2.opIdx → oracle k = false) := by
  intro starts
  induction starts with
  | nil =>
    intro e e2 ok h
    obtain ⟨he, _⟩ := Prod.mk.injEq .. ▸ h
    rw [← he]
    exact ⟨le_rfl, rfl, fun _ k hk1 hk2 => by omega⟩
  | cons i rest ih =>
    intro e e2 ok h
    rw [insertBatchesAux] at h
    rcases hr : runOp oracle e (Op.insertBatch i)
        (insertBatchEff tableName (batchRows i (min (i + batchSize) maxNumber)))
      with ⟨eA, okA⟩
    rw [hr] at h
    obtain ⟨hA1, hA2, _, hA4⟩ := runOp_eq hr
    cases okA with
    | true =>
      obtain ⟨hle, herr, hint⟩ := ih eA e2 ok h
      refine ⟨by omega, by rw [herr, hA2], ?_⟩
      intro hok k hk1 hk2
      by_cases hkA : k < eA.opIdx
      · have hke : k = e.opIdx := by omega
        rw [hke]
        exact hA4 rfl
      · exact hint hok k (by omega) hk2
    | false =>
      obtain ⟨he2, hok2⟩ := Prod.mk.injEq .. ▸ h
      rw [← he2]
      refine ⟨by omega, hA2, ?_⟩
      intro hfalse
      rw [← hok2] at hfalse
      cases hfalse

theorem insertFormsAux_spec (oracle : Nat → Bool) (meetingId : Nat) :
    ∀ (fids : List Nat) (e e2 : Exec) (ok : Bool),
      insertFormsAux oracle meetingId fids e = (e2, ok) →
      e.opIdx ≤ e2.opIdx ∧ e2.errors = e.errors ∧
      (ok = true → ∀ k, e.opIdx ≤ k → k < e2.opIdx → oracle k = false) := by
  intro fids
  induction fids with
  | nil =>
    intro e e2 ok h
    obtain ⟨he, _⟩ := Prod.mk.injEq .. ▸ h
    rw [← he]
    exact ⟨le_rfl, rfl, fun _ k hk1 hk2 => by omega⟩
  | cons fid rest ih =>
    intro e e2 ok h
    rw [insertFormsAux] at h
    rcases hr : runOp oracle e (Op.insertMeetingForm fid) (insertFormEff meetingId fid)
      with ⟨eA, okA⟩
    rw [hr] at h
    obtain ⟨hA1, hA2, _, hA4⟩ := runOp_eq hr
    cases okA with
    | true =>
      obtain ⟨hle, herr, hint⟩ := ih eA e2 ok h
      refine ⟨by omega, by rw [herr, hA2], ?_⟩
      intro hok k hk1 hk2
      by_cases hkA : k < eA.opIdx
      · have hke : k = e.opIdx := by omega
        rw [hke]
        exact hA4 rfl
      · exact hint hok k (by omega) hk2
    | false =>
      obtain ⟨he2, hok2⟩ := Prod.mk.injEq .. ▸ h
      rw [← he2]
      refine ⟨by omega, hA2, ?_⟩
      intro hfalse
      rw [← hok2] at hfalse
      cases hfalse

/-- What the rollback branch guarantees: the metadata delete is always
attempted, at least one error message is rendered, the table drop is
attempted unless the delete itself raised (which renders a second message),
and the `meeting_forms` links are never touched. -/
theorem rollback_spec (oracle : Nat → Bool) (tableName : String) (e : Exec) :
    Op.deleteMetadata tableName ∈ (rollback oracle tableName e).trace ∧
    e.errors + 1 ≤ (rollback oracle tableName e).errors ∧
    (Op.dropTable tableName ∈ (rollback oracle tableName e).trace ∨
      e.errors + 2 ≤ (rollback oracle tableName e).errors) ∧
    (rollback oracle tableName e).db.meetingForms = e.db.meetingForms := by
  rw [rollback]
  rcases hr1 : runOp oracle { e with errors := e.errors + 1 }
      (Op.deleteMetadata tableName) (deleteMetadataEff tableName) with ⟨e1, ok1⟩
  obtain ⟨_, hE1, hT1, _⟩ := runOp_eq hr1
  have hF1 : e1.db.meetingForms = e.db.meetingForms :=
    @runOp_meetingForms oracle { e with errors := e.errors + 1 }
      (Op.deleteMetadata tableName) (deleteMetadataEff tableName) e1 ok1
      (fun d => rfl) hr1
  cases ok1 with
  | true =>
    rcases hr2 : runOp oracle e1 (Op.dropTable tableName) (dropTableEff tableName)
      with ⟨e2, ok2⟩
    obtain ⟨_, hE2, hT2, _⟩ := runOp_eq hr2
    have hF2 : e2.db.meetingForms = e1.db.meetingForms :=
      @runOp_meetingForms oracle e1 (Op.dropTable tableName) (dropTableEff tableName)
        e2 ok2 (fun d => rfl) hr2
    simp only [hr2]
    refine ⟨?_, ?_, Or.inl ?_, ?_⟩
    · rw [hT2, hT1]
      simp
    · rw [hE2, hE1]
    · rw [hT2]
      simp
    · rw [hF2, hF1]
  | false =>
    refine ⟨?_, ?_, Or.inr ?_, ?_⟩
    · show Op.deleteMetadata tableName ∈ e1.trace
      rw [hT1]
      simp
    · show e.errors + 1 ≤ e1.errors + 1
      have h : e1.errors = e.errors + 1 := hE1
      omega
    · show e.errors + 2 ≤ e1.errors + 1
      have : e1.errors = e.errors + 1 := hE1
      omega
    · exact hF1

theorem mem_getAnsweredForms {responses : List ResponseRow} {pid : String} {fid : Nat} :
    fid ∈ getAnsweredForms responses pid ↔
      ∃ r ∈ responses, r.participantId = pid ∧ r.formId = fid := by
  rw [getAnsweredForms]
  constructor
  · intro h
    rw [List.mem_map] at h
    obtain ⟨r, hr, hf⟩ := h
    rw [List.mem_filter] at hr
    exact ⟨r, hr.1, by simpa using hr.2, hf⟩
  · rintro ⟨r, hr, hp, hf⟩
    rw [List.mem_map]
    exact ⟨r, List.mem_filter.mpr ⟨hr, by simp [hp]⟩, hf⟩

theorem ifEmpty_eq_self {α : Type} (l : List α) :
    (if l.isEmpty then ([] : List α) else l) = l := by
  cases l <;> rfl

end PrePost

namespace PrePost

/-- Claim C1: Allocator idempotence — an identity that already owns a slot in
the pool gets the same number back on every call, and the pool is returned
unmodified (the binding is found by the equality filter on `user_id` and no
write is issued). -/
theorem assignOrGet_idempotent (pool : Pool) (uid : String)
    (p1 t1 p2 t2 : Nat)
    (h : ∃ s ∈ pool, s.userId = some uid) :
    ∃ n, assignOrGet pool uid p1 t1 = (.ok n, pool) ∧
         assignOrGet pool uid p2 t2 = (.ok n, pool) := by
  have hfind : (findOwned pool uid).isSome := by
    rw [findOwned, List.find?_isSome]
    obtain ⟨s, hs, hu⟩ := h
    exact ⟨s, hs, by simp [hu]⟩
  obtain ⟨s0, hs0⟩ := Option.isSome_iff_exists.mp hfind
  exact ⟨s0.number, by simp [assignOrGet, hs0], by simp [assignOrGet, hs0]⟩

/-- Witness for C1 at a concrete pool: identity "A" owns slot 5; two calls
with different randomness both return 5 and leave the pool unchanged. -/
theorem assignOrGet_idempotent_witness :
    ∃ n, assignOrGet [⟨5, true, some 0, some "A"⟩] "A" 0 0 =
           (.ok n, [⟨5, true, some 0, some "A"⟩]) ∧
         assignOrGet [⟨5, true, some 0, some "A"⟩] "A" 3 7 =
           (.ok n, [⟨5, true, some 0, some "A"⟩]) :=
  assignOrGet_idempotent _ "A" 0 0 3 7 ⟨⟨5, true, some 0, some "A"⟩, by simp, rfl⟩

/-- Claim C2, counterexample to the literal statement: on a pool that binds
an identity to a slot left unassigned (a state pool creation never produces),
two sequential successful allocations by the distinct identities "B" and "A"
both return the number 5.  Identity "B" finds its binding by lookup and no
write occurs, so slot 5 is still unassigned when "A" allocates it. -/
theorem assignOrGet_unique_cex :
    "B" ≠ "A" ∧
    assignOrGet [⟨5, false, none, some "B"⟩] "B" 0 0 =
      (.ok 5, [⟨5, false, none, some "B"⟩]) ∧
    assignOrGet [⟨5, false, none, some "B"⟩] "A" 1 3 =
      (.ok 5, [⟨5, true, some 3, some "A"⟩]) :=
  ⟨by decide, rfl, rfl⟩

/-- Claim C2 (amended): on a well-formed pool — slot numbers pairwise
distinct and every identity-bound slot marked assigned, as established by
pool creation and preserved by every allocation — two sequential successful
allocations by distinct identities return different numbers, and the
resulting pool is again well-formed. -/
theorem assignOrGet_unique (pool pool1 pool2 : Pool) (uid1 uid2 : String)
    (p1 t1 p2 t2 n1 n2 : Nat)
    (hwf : WellFormed pool) (hne : uid1 ≠ uid2)
    (h1 : assignOrGet pool uid1 p1 t1 = (.ok n1, pool1))
    (h2 : assignOrGet pool1 uid2 p2 t2 = (.ok n2, pool2)) :
    n1 ≠ n2 ∧ WellFormed pool2 := by
  refine ⟨?_, wellFormed_assignOrGet (wellFormed_assignOrGet hwf h1) h2⟩
  rcases hf1 : findOwned pool uid1 with _ | s1
  · obtain ⟨⟨sa, hsa, hsa2, hsa3⟩, hp1⟩ :=
      assignOrGet_fresh_spec pool uid1 p1 t1 n1 pool1 hf1 h1
    subst hp1
    rcases hf2 : findOwned (updateByNumber pool n1 t1 uid1) uid2 with _ | s2
    · obtain ⟨⟨sb, hsb, hsb2, hsb3⟩, _⟩ :=
        assignOrGet_fresh_spec _ uid2 p2 t2 n2 pool2 hf2 h2
      rcases mem_updateByNumber_elim hsb with ⟨_, _, hba⟩ | ⟨hbn, _⟩
      · rw [hba] at hsb2
        cases hsb2
      · intro hc
        exact hbn (by rw [hsb3, ← hc])
    · rw [assignOrGet, hf2] at h2
      obtain ⟨hok2, _⟩ := Prod.mk.injEq .. ▸ h2
      have hn2 : s2.number = n2 := by injection hok2
      obtain ⟨hmem2, hu2⟩ := findOwned_some hf2
      rcases mem_updateByNumber_elim hmem2 with ⟨_, hu, _⟩ | ⟨hbn, _⟩
      · rw [hu] at hu2
        injection hu2 with h3
        exact absurd h3 hne
      · intro hc
        exact hbn (by rw [hn2, ← hc])
  · rw [assignOrGet, hf1] at h1
    obtain ⟨hok1, hpool1⟩ := Prod.mk.injEq .. ▸ h1
    have hn1 : s1.number = n1 := by injection hok1
    obtain ⟨hmem1, hu1⟩ := findOwned_some hf1
    subst hpool1
    rcases hf2 : findOwned pool uid2 with _ | s2
    · obtain ⟨⟨sb, hsb, hsb2, hsb3⟩, _⟩ :=
        assignOrGet_fresh_spec pool uid2 p2 t2 n2 pool2 hf2 h2
      intro hc
      have hinj := List.inj_on_of_nodup_map hwf.1
      have hbs : sb = s1 := hinj hsb hmem1 (by rw [hsb3, ← hc, ← hn1])
      rw [hbs] at hsb2
      have hassigned := hwf.2 s1 hmem1 (by rw [hu1]; exact fun hcc => by cases hcc)
      rw [hassigned] at hsb2
      cases hsb2
    · rw [assignOrGet, hf2] at h2
      obtain ⟨hok2, _⟩ := Prod.mk.injEq .. ▸ h2
      have hn2 : s2.number = n2 := by injection hok2
      obtain ⟨hmem2, hu2⟩ := findOwned_some hf2
      intro hc
      have hinj := List.inj_on_of_nodup_map hwf.1
      have heq : s1 = s2 := hinj hmem1 hmem2 (by rw [hn1, hn2, hc])
      rw [heq, hu2] at hu1
      injection hu1 with h3
      exact hne h3.symm

/-- Witness for the amended C2 at a concrete two-slot pool: "A" then "B"
allocate sequentially and receive the distinct numbers 1 and 2. -/
theorem assignOrGet_unique_witness :
    (1 : Nat) ≠ 2 ∧
      WellFormed [⟨1, true, some 0, some "A"⟩, ⟨2, true, some 0, some "B"⟩] :=
  assignOrGet_unique [⟨1, false, none, none⟩, ⟨2, false, none, none⟩]
    [⟨1, true, some 0, some "A"⟩, ⟨2, false, none, none⟩]
    [⟨1, true, some 0, some "A"⟩, ⟨2, true, some 0, some "B"⟩]
    "A" "B" 0 0 0 0 1 2
    (by refine ⟨by decide, ?_⟩
        intro s hs hu
        rcases List.mem_cons.mp hs with h | h2
        · rw [h] at hu; simp at hu
        · rcases List.mem_cons.mp h2 with h | h3
          · rw [h] at hu; simp at hu
          · cases h3)
    (by decide) rfl rfl

/-- Claim C4: Pool creation completeness — for every `max_number ≥ 1` and any
positive batch size, the union of the batch inserts is exactly the rows
numbered `1 .. max_number`, in order, with no duplicates and no gaps, each
row unassigned with null `assigned_at` and `user_id`. -/
theorem createPoolRows_complete (maxNumber batchSize : Nat)
    (_hmax : 1 ≤ maxNumber) (hb : 1 ≤ batchSize) :
    (createPoolRows maxNumber batchSize).map Slot.number = List.range' 1 maxNumber ∧
    (createPoolRows maxNumber batchSize).length = maxNumber ∧
    ((createPoolRows maxNumber batchSize).map Slot.number).Nodup ∧
    ∀ s ∈ createPoolRows maxNumber batchSize,
      s.assigned = false ∧ s.assignedAt = none ∧ s.userId = none := by
  have he := createPoolRows_eq maxNumber batchSize hb
  have hnum : (createPoolRows maxNumber batchSize).map Slot.number =
      List.range' 1 maxNumber := by
    rw [he, List.map_map, number_comp_freshSlot, List.map_id]
  refine ⟨hnum, ?_, ?_, ?_⟩
  · rw [he]
    simp
  · rw [hnum]
    exact List.nodup_range' 1 maxNumber
  · intro s hs
    rw [he, List.mem_map] at hs
    obtain ⟨j, _, hj⟩ := hs
    rw [← hj]
    exact ⟨rfl, rfl, rfl⟩

/-- Witness for C4 with `max_number = 5` and batch size 2, exercising an
uneven final batch. -/
theorem createPoolRows_complete_witness :
    (createPoolRows 5 2).map Slot.number = List.range' 1 5 ∧
    (createPoolRows 5 2).length = 5 ∧
    ((createPoolRows 5 2).map Slot.number).Nodup ∧
    ∀ s ∈ createPoolRows 5 2,
      s.assigned = false ∧ s.assignedAt = none ∧ s.userId = none :=
  createPoolRows_complete 5 2 (by decide) (by decide)

/-- Claim C3: Pool exhaustion — on a pool with no unassigned row, an
allocation request from an identity owning no slot fails with
`poolExhausted`, returns no number and writes no slot; in particular a
freshly created pool of size N, after N successful sequential allocations by
pairwise-distinct identities, answers `poolExhausted` to an (N+1)-th new
identity. -/
theorem assignOrGet_poolExhausted :
    (∀ (pool : Pool) (uid : String) (pick now : Nat),
        (∀ s ∈ pool, s.assigned = true) →
        (∀ s ∈ pool, s.userId ≠ some uid) →
        assignOrGet pool uid pick now = (.error .poolExhausted, pool)) ∧
    (∀ (N batchSize : Nat) (calls : List (String × Nat × Nat))
        (uidNew : String) (pickNew nowNew : Nat),
        1 ≤ batchSize →
        (calls.map Prod.fst).Nodup →
        calls.length = N →
        uidNew ∉ calls.map Prod.fst →
        ∃ pool2, allocSeq (createPoolRows N batchSize) calls = .ok pool2 ∧
          assignOrGet pool2 uidNew pickNew nowNew = (.error .poolExhausted, pool2)) := by
  constructor
  · intro pool uid pick now hall hnb
    have hf : findOwned pool uid = none := (findOwned_eq_none_iff pool uid).mpr hnb
    have hcount : countUnassigned pool = 0 := by
      rw [countUnassigned, List.length_eq_zero, unassignedSlots, List.filter_eq_nil_iff]
      intro s hs
      simp [hall s hs]
    exact assignOrGet_exhausted pool uid pick now hf hcount
  · intro N batchSize calls uidNew pickNew nowNew hb hnodup hlen hnew
    have hwf := createPoolRows_complete N batchSize
    have hcount := countUnassigned_createPoolRows N batchSize hb
    have hnums : ((createPoolRows N batchSize).map Slot.number).Nodup := by
      rw [createPoolRows_eq N batchSize hb, List.map_map, number_comp_freshSlot,
        List.map_id]
      exact List.nodup_range' 1 N
    obtain ⟨pool2, hseq, hc2, _, hnb2⟩ :=
      allocSeq_spec calls (createPoolRows N batchSize) hnums hnodup
        (fun uid _ => notBound_createPoolRows N batchSize uid)
        (by rw [hcount, hlen])
    have hc0 : countUnassigned pool2 = 0 := by
      rw [hc2, hcount, hlen]
      omega
    have hnbNew : NotBound pool2 uidNew :=
      hnb2 uidNew hnew (notBound_createPoolRows N batchSize uidNew)
    refine ⟨pool2, hseq, ?_⟩
    exact assignOrGet_exhausted pool2 uidNew pickNew nowNew
      ((findOwned_eq_none_iff pool2 uidNew).mpr hnbNew) hc0

/-- Witness for C3: a fully assigned one-slot pool rejects a new identity,
and a freshly created pool of size 2, after allocations by "A" and "B",
rejects "C" with pool exhaustion. -/
theorem assignOrGet_poolExhausted_witness :
    assignOrGet [⟨1, true, some 0, some "A"⟩] "B" 0 0 =
      (.error .poolExhausted, [⟨1, true, some 0, some "A"⟩]) ∧
    ∃ pool2, allocSeq (createPoolRows 2 100) [("A", 0, 0), ("B", 1, 1)] = .ok pool2 ∧
      assignOrGet pool2 "C" 0 2 = (.error .poolExhausted, pool2) :=
  ⟨assignOrGet_poolExhausted.1 [⟨1, true, some 0, some "A"⟩] "B" 0 0
      (by decide) (by decide),
    assignOrGet_poolExhausted.2 2 100 [("A", 0, 0), ("B", 1, 1)] "C" 0 2
      (by decide) (by decide) rfl (by decide)⟩

/-- Claim C5: Pool-creation compensating rollback — whenever any store call
of `create_meeting_table` raises, the function reports failure, renders at
least one error message, and attempts the metadata delete (and, unless the
delete itself raised and a second message was rendered, the table drop);
success is reported only when every attempted store call succeeded. -/
theorem createMeetingTable_reports_failure
    (oracle : Nat → Bool) (db : DB) (tableName meetingName : String)
    (createdAt maxNumber batchSize meetingId : Nat) (selectedForms : List Nat)
    (success : Bool) (e : Exec)
    (h : createMeetingTable oracle db tableName meetingName createdAt maxNumber
        batchSize meetingId selectedForms = (success, e)) :
    (success = true → e.errors = 0 ∧ ∀ k, k < e.opIdx → oracle k = false) ∧
    (success = false →
      Op.deleteMetadata tableName ∈ e.trace ∧ 1 ≤ e.errors ∧
      (Op.dropTable tableName ∈ e.trace ∨ 2 ≤ e.errors)) := by
  simp only [createMeetingTable] at h
  rcases h1 : runOp oracle ⟨db, 0, [], 0⟩ Op.insertMetadata
      (insertMetadataEff tableName meetingName createdAt maxNumber meetingId)
    with ⟨e1, ok1⟩
  rw [h1] at h
  dsimp only at h
  obtain ⟨hI1, hE1, _, hO1⟩ := runOp_eq h1
  have i1 : e1.opIdx = 1 := hI1
  have z1 : e1.errors = 0 := hE1
  cases ok1 with
  | false =>
    rw [if_neg (by simp)] at h
    obtain ⟨hs, he⟩ := Prod.mk.injEq .. ▸ h
    refine ⟨(fun ht => by cases hs.trans ht), fun _ => ?_⟩
    obtain ⟨hm, herr, hdrop, _⟩ := rollback_spec oracle tableName e1
    rw [← he]
    refine ⟨hm, by omega, ?_⟩
    rcases hdrop with hd | hd
    · exact Or.inl hd
    · exact Or.inr (by omega)
  | true =>
    have o0 : oracle 0 = false := hO1 rfl
    rw [if_pos rfl] at h
    rcases h2 : runOp oracle e1 Op.createTable (createTableEff tableName) with ⟨e2, ok2⟩
    rw [h2] at h
    dsimp only at h
    obtain ⟨hI2, hE2, _, hO2⟩ := runOp_eq h2
    have i2 : e2.opIdx = 2 := by omega
    have z2 : e2.errors = 0 := by omega
    cases ok2 with
    | false =>
      rw [if_neg (by simp)] at h
      obtain ⟨hs, he⟩ := Prod.mk.injEq .. ▸ h
      refine ⟨(fun ht => by cases hs.trans ht), fun _ => ?_⟩
      obtain ⟨hm, herr, hdrop, _⟩ := rollback_spec oracle tableName e2
      rw [← he]
      refine ⟨hm, by omega, ?_⟩
      rcases hdrop with hd | hd
      · exact Or.inl hd
      · exact Or.inr (by omega)
    | true =>
      have o1 : oracle 1 = false := by rw [← i1]; exact hO2 rfl
      rw [if_pos rfl] at h
      rcases h3 : runCheck oracle e2 tableName with ⟨e3, ok3⟩
      rw [h3] at h
      dsimp only at h
      obtain ⟨hI3, hE3, _, hO3⟩ := runCheck_eq h3
      have i3 : e3.opIdx = 3 := by omega
      have z3 : e3.errors = 0 := by omega
      cases ok3 with
      | false =>
        rw [if_neg (by simp)] at h
        obtain ⟨hs, he⟩ := Prod.mk.injEq .. ▸ h
        refine ⟨(fun ht => by cases hs.trans ht), fun _ => ?_⟩
        obtain ⟨hm, herr, hdrop, _⟩ := rollback_spec oracle tableName e3
        rw [← he]
        refine ⟨hm, by omega, ?_⟩
        rcases hdrop with hd | hd
        · exact Or.inl hd
        · exact Or.inr (by omega)
      | true =>
        have o2 : oracle 2 = false := by rw [← i2]; exact hO3 rfl
        rw [if_pos rfl] at h
        rcases h4 : insertBatchesAux oracle tableName maxNumber batchSize
            (batchStarts maxNumber batchSize) e3
          with ⟨e4, ok4⟩
        rw [h4] at h
        dsimp only at h
        obtain ⟨hI4, hE4, hInt4⟩ :=
          insertBatchesAux_spec oracle tableName maxNumber batchSize
            (batchStarts maxNumber batchSize) e3 e4 ok4 h4
        have z4 : e4.errors = 0 := by omega
        cases ok4 with
        | false =>
          rw [if_neg (by simp)] at h
          obtain ⟨hs, he⟩ := Prod.mk.injEq .. ▸ h
          refine ⟨(fun ht => by cases hs.trans ht), fun _ => ?_⟩
          obtain ⟨hm, herr, hdrop, _⟩ := rollback_spec oracle tableName e4
          rw [← he]
          refine ⟨hm, by omega, ?_⟩
          rcases hdrop with hd | hd
          · exact Or.inl hd
          · exact Or.inr (by omega)
        | true =>
          rw [if_pos rfl] at h
          rcases h5 : insertFormsAux oracle meetingId selectedForms e4 with ⟨e5, ok5⟩
          rw [h5] at h
          dsimp only at h
          obtain ⟨hI5, hE5, hInt5⟩ :=
            insertFormsAux_spec oracle meetingId selectedForms e4 e5 ok5 h5
          have z5 : e5.errors = 0 := by omega
          cases ok5 with
          | false =>
            rw [if_neg (by simp)] at h
            obtain ⟨hs, he⟩ := Prod.mk.injEq .. ▸ h
            refine ⟨(fun ht => by cases hs.trans ht), fun _ => ?_⟩
            obtain ⟨hm, herr, hdrop, _⟩ := rollback_spec oracle tableName e5
            rw [← he]
            refine ⟨hm, by omega, ?_⟩
            rcases hdrop with hd | hd
            · exact Or.inl hd
            · exact Or.inr (by omega)
          | true =>
            rw [if_pos rfl] at h
            obtain ⟨hs, he⟩ := Prod.mk.injEq .. ▸ h
            refine ⟨fun _ => ?_, (fun hf => by cases hs.trans hf)⟩
            rw [← he]
            refine ⟨z5, ?_⟩
            intro k hk
            by_cases hk3 : k < 3
            · have hcase : k = 0 ∨ k = 1 ∨ k = 2 := by omega
              rcases hcase with hc | hc | hc <;> rw [hc]
              · exact o0
              · exact o1
              · exact o2
            · by_cases hk4 : k < e4.opIdx
              · exact hInt4 rfl k (by omega) hk4
              · exact hInt5 rfl k (by omega) hk

/-- Witness for C5: with a never-failing oracle the creation succeeds
having rendered no error, and with an oracle failing the second form-link
insert it reports failure having attempted the metadata delete. -/
theorem createMeetingTable_reports_failure_witness :
    ((createMeetingTable (fun _ => false) ⟨[], [], []⟩ "m1" "x" 0 2 100 7 [41]).2.errors = 0 ∧
      ∀ k, k < (createMeetingTable (fun _ => false) ⟨[], [], []⟩ "m1" "x" 0 2 100 7 [41]).2.opIdx →
        (fun _ : Nat => false) k = false) ∧
    (Op.deleteMetadata "m1" ∈
        (createMeetingTable (fun k => k == 5) ⟨[], [], []⟩ "m1" "x" 0 2 100 7 [41, 42]).2.trace ∧
      1 ≤ (createMeetingTable (fun k => k == 5) ⟨[], [], []⟩ "m1" "x" 0 2 100 7 [41, 42]).2.errors ∧
      (Op.dropTable "m1" ∈
          (createMeetingTable (fun k => k == 5) ⟨[], [], []⟩ "m1" "x" 0 2 100 7 [41, 42]).2.trace ∨
        2 ≤ (createMeetingTable (fun k => k == 5) ⟨[], [], []⟩ "m1" "x" 0 2 100 7 [41, 42]).2.errors)) :=
  ⟨(createMeetingTable_reports_failure (fun _ => false) ⟨[], [], []⟩ "m1" "x" 0 2 100 7 [41]
      (createMeetingTable (fun _ => false) ⟨[], [], []⟩ "m1" "x" 0 2 100 7 [41]).1
      (createMeetingTable (fun _ => false) ⟨[], [], []⟩ "m1" "x" 0 2 100 7 [41]).2
      rfl).1 rfl,
   (createMeetingTable_reports_failure (fun k => k == 5) ⟨[], [], []⟩ "m1" "x" 0 2 100 7 [41, 42]
      (createMeetingTable (fun k => k == 5) ⟨[], [], []⟩ "m1" "x" 0 2 100 7 [41, 42]).1
      (createMeetingTable (fun k => k == 5) ⟨[], [], []⟩ "m1" "x" 0 2 100 7 [41, 42]).2
      rfl).2 rfl⟩

/-- Claim C9 (implicit frame effect): the compensating rollback touches only
the `meetings_metadata` row and the pool table and never the `meeting_forms`
links; concretely, when creation of pool "m1" fails at the second of two
form-link inserts, the link row already inserted survives the rollback while
the metadata row is deleted and the table dropped, and failure is reported. -/
theorem rollback_spares_meetingForms :
    (∀ (oracle : Nat → Bool) (tableName : String) (e : Exec),
      (rollback oracle tableName e).db.meetingForms = e.db.meetingForms) ∧
    createMeetingTable (fun k => k == 5) ⟨[], [], []⟩ "m1" "x" 0 2 100 7 [41, 42] =
      (false, ⟨⟨[], [], [(7, 41)]⟩, 8,
        [Op.insertMetadata, Op.createTable, Op.checkTable, Op.insertBatch 0,
          Op.insertMeetingForm 41, Op.insertMeetingForm 42,
          Op.deleteMetadata "m1", Op.dropTable "m1"], 1⟩) := by
  constructor
  · intro oracle tableName e
    exact (rollback_spec oracle tableName e).2.2.2
  · rfl

/-- Claim C6: Form-submission preconditions — without a number bound to the
session identity in any pool the submission fails `unauthorized`; with a
bound participant id, any prior response row for the (participant, form)
pair fails it `alreadySubmitted`; a missing answer (empty text or no option
selected) fails it `validationError`; in each failure case the responses
table is returned unchanged. -/
theorem submitForm_preconditions
    (meetings : List MeetingMeta) (tables : List (String × Pool))
    (responses : List ResponseRow) (uid : String) (formId : Nat)
    (questions : List Question) (textInput : Nat → String)
    (choiceInput : Nat → Option Nat) :
    (lookupParticipantId meetings tables uid = none →
      submitForm meetings tables responses uid formId questions textInput choiceInput =
        (.unauthorized, responses)) ∧
    (∀ pid mtn, lookupParticipantId meetings tables uid = some (pid, mtn) →
      (∃ r ∈ responses, r.participantId = pid ∧ r.formId = formId) →
      submitForm meetings tables responses uid formId questions textInput choiceInput =
        (.alreadySubmitted, responses)) ∧
    (∀ pid mtn, lookupParticipantId meetings tables uid = some (pid, mtn) →
      (∀ r ∈ responses, ¬(r.participantId = pid ∧ r.formId = formId)) →
      (∃ q ∈ questions,
        (q.questionType = QType.text ∧ textInput q.id = "") ∨
        (q.questionType = QType.multipleChoice ∧ choiceInput q.id = none)) →
      submitForm meetings tables responses uid formId questions textInput choiceInput =
        (.validationError, responses)) := by
  refine ⟨?_, ?_, ?_⟩
  · intro h
    show (match lookupParticipantId meetings tables uid with
      | none => ((.unauthorized : SubmitResult), responses)
      | some (participantId, _) =>
        submitFormAuth responses participantId formId questions textInput choiceInput) =
      (.unauthorized, responses)
    rw [h]
  · intro pid mtn h hex
    show (match lookupParticipantId meetings tables uid with
      | none => ((.unauthorized : SubmitResult), responses)
      | some (participantId, _) =>
        submitFormAuth responses participantId formId questions textInput choiceInput) =
      (.alreadySubmitted, responses)
    rw [h]
    show submitFormAuth responses pid formId questions textInput choiceInput = _
    rw [submitFormAuth, if_pos (mem_getAnsweredForms.mpr hex)]
  · intro pid mtn h hnone hmiss
    show (match lookupParticipantId meetings tables uid with
      | none => ((.unauthorized : SubmitResult), responses)
      | some (participantId, _) =>
        submitFormAuth responses participantId formId questions textInput choiceInput) =
      (.validationError, responses)
    rw [h]
    show submitFormAuth responses pid formId questions textInput choiceInput = _
    have hnotmem : formId ∉ getAnsweredForms responses pid := by
      intro hc
      obtain ⟨r, hr, hp, hf⟩ := mem_getAnsweredForms.mp hc
      exact hnone r hr ⟨hp, hf⟩
    simp only [submitFormAuth]
    rw [if_neg hnotmem]
    obtain ⟨q, hq, hcase⟩ := hmiss
    have hmem : (q.id, (match q.questionType with
        | QType.text => AnswerVal.text (textInput q.id)
        | QType.multipleChoice => AnswerVal.choice (choiceInput q.id))) ∈
        buildResponses questions textInput choiceInput := by
      rw [buildResponses]
      exact List.mem_map_of_mem _ hq
    cases hall : (buildResponses questions textInput choiceInput).all (fun r => truthy r.2) with
    | false => rw [if_neg (by simp [hall])]
    | true =>
      exfalso
      have htr := List.all_eq_true.mp hall _ hmem
      rcases hcase with ⟨ht, he⟩ | ⟨hm, hn⟩
      · simp [ht, he, truthy] at htr
      · simp [hm, hn, truthy] at htr

/-- Witness for C6 at a one-meeting, one-slot store: an unknown identity is
unauthorized; the bound identity "u1" (number 2) is refused a second
submission for form 99; an empty text answer is refused as invalid. -/
theorem submitForm_preconditions_witness :
    submitForm [⟨1, "mt", "M", 0, 3⟩] [("mt", [⟨2, true, some 0, some "u1"⟩])] []
        "ghost" 99 [⟨10, "Q1", QType.text, none⟩] (fun _ => "hello") (fun _ => none) =
      (.unauthorized, []) ∧
    submitForm [⟨1, "mt", "M", 0, 3⟩] [("mt", [⟨2, true, some 0, some "u1"⟩])]
        [⟨99, "2", 10, "hello"⟩] "u1" 99 [⟨10, "Q1", QType.text, none⟩]
        (fun _ => "hello") (fun _ => none) =
      (.alreadySubmitted, [⟨99, "2", 10, "hello"⟩]) ∧
    submitForm [⟨1, "mt", "M", 0, 3⟩] [("mt", [⟨2, true, some 0, some "u1"⟩])] []
        "u1" 99 [⟨10, "Q1", QType.text, none⟩] (fun _ => "") (fun _ => none) =
      (.validationError, []) :=
  ⟨(submitForm_preconditions _ _ _ _ _ _ _ _).1 rfl,
   (submitForm_preconditions _ _ _ _ _ _ _ _).2.1 "2" "mt" rfl
     ⟨⟨99, "2", 10, "hello"⟩, by simp, rfl, rfl⟩,
   (submitForm_preconditions _ _ _ _ _ _ _ _).2.2 "2" "mt" rfl (by simp)
     ⟨⟨10, "Q1", QType.text, none⟩, by simp, Or.inl ⟨rfl, rfl⟩⟩⟩

/-- Claim C7, counterexample to the literal statement: on a raising query
each catalog accessor returns the very collection a zero-row success
returns — the caller cannot distinguish a store failure from an empty
result by the returned value; the failure is only rendered as a message. -/
theorem catalogAccessors_cex :
    (getAvailableMeetings (.error "connection refused")).1 =
      (getAvailableMeetings (.ok [])).1 ∧
    (getAvailableForms (.error "connection refused")).1 =
      (getAvailableForms (.ok [])).1 ∧
    (getFormsForMeeting (.error "connection refused") (fun _ => .ok [])).1 =
      (getFormsForMeeting (.ok []) (fun _ => .ok [])).1 ∧
    (getAnsweredFormsQuery (.error "connection refused")).1 =
      (getAnsweredFormsQuery (.ok [])).1 :=
  ⟨rfl, rfl, rfl, rfl⟩

/-- Claim C7 (amended): each read-only catalog accessor returns the rows and
no message when the query succeeds (the empty collection on zero matches),
and the empty collection plus a rendered error message when the query
raises — the failure is surfaced only through the message channel, while
the returned collection is indistinguishable from an empty success. -/
theorem catalogAccessors_spec :
    (∀ rows, getAvailableMeetings (.ok rows) = (rows, [])) ∧
    (∀ msg, (getAvailableMeetings (.error msg)).1 = [] ∧
      (getAvailableMeetings (.error msg)).2 ≠ []) ∧
    (∀ rows, getAvailableForms (.ok rows) = (rows, [])) ∧
    (∀ msg, (getAvailableForms (.error msg)).1 = [] ∧
      (getAvailableForms (.error msg)).2 ≠ []) ∧
    (∀ ids forms, getFormsForMeeting (.ok ids) (fun _ => .ok forms) =
      ((if ids.isEmpty then [] else forms), [])) ∧
    (∀ msg q2, (getFormsForMeeting (.error msg) q2).1 = [] ∧
      (getFormsForMeeting (.error msg) q2).2 ≠ []) ∧
    (∀ ids msg, ids.isEmpty = false →
      (getFormsForMeeting (.ok ids) (fun _ => .error msg)).1 = [] ∧
      (getFormsForMeeting (.ok ids) (fun _ => .error msg)).2 ≠ []) ∧
    (∀ rows, getAnsweredFormsQuery (.ok rows) = (rows, [])) ∧
    (∀ msg, (getAnsweredFormsQuery (.error msg)).1 = [] ∧
      (getAnsweredFormsQuery (.error msg)).2 ≠ []) := by
  refine ⟨?_, ?_, ?_, ?_, ?_, ?_, ?_, ?_, ?_⟩
  · intro rows
    simp [getAvailableMeetings, ifEmpty_eq_self]
  · intro msg
    exact ⟨rfl, by simp [getAvailableMeetings]⟩
  · intro rows
    simp [getAvailableForms, ifEmpty_eq_self]
  · intro msg
    exact ⟨rfl, by simp [getAvailableForms]⟩
  · intro ids forms
    cases ids <;> simp [getFormsForMeeting, ifEmpty_eq_self]
  · intro msg q2
    exact ⟨rfl, by simp [getFormsForMeeting]⟩
  · intro ids msg hne
    cases ids with
    | nil => cases hne
    | cons i rest => exact ⟨rfl, by simp [getFormsForMeeting]⟩
  · intro rows
    simp [getAnsweredFormsQuery, ifEmpty_eq_self]
  · intro msg
    exact ⟨rfl, by simp [getAnsweredFormsQuery]⟩

/-- Witness for the amended C7 at concrete queries. -/
theorem catalogAccessors_spec_witness :
    getAvailableMeetings (.ok []) = ([], []) ∧
    ((getAvailableMeetings (.error "down")).1 = [] ∧
      (getAvailableMeetings (.error "down")).2 ≠ []) ∧
    ((getFormsForMeeting (.ok [41]) (fun _ => .error "down")).1 = [] ∧
      (getFormsForMeeting (.ok [41]) (fun _ => .error "down")).2 ≠ []) :=
  ⟨catalogAccessors_spec.1 [], catalogAccessors_spec.2.1 "down",
   catalogAccessors_spec.2.2.2.2.2.2.1 [41] "down" rfl⟩

/-- Claim C8: Grading output — creating a form with a text question without
correct answer and a multiple-choice question whose correct option is "Red"
stores `correct_answer` as the stringified id of the "Red" option row; after
participant "2" submits the text "hello" and selects "Red", the statistics
grading marks the multiple-choice row correct (cell "✅ Correta") and the
text row "N/A". -/
theorem grading_scenario :
    createFormQuestions
        [⟨QType.text, "Q1", [], none⟩,
         ⟨QType.multipleChoice, "Q2", ["Red", "Blue"], some "Red"⟩] 10 20 =
      ([⟨10, "Q1", QType.text, none⟩, ⟨11, "Q2", QType.multipleChoice, some "20"⟩],
       [⟨20, 11, "Red"⟩, ⟨21, 11, "Blue"⟩]) ∧
    submitForm [⟨1, "mt", "M", 0, 3⟩] [("mt", [⟨2, true, some 0, some "u1"⟩])] [] "u1" 99
        [⟨10, "Q1", QType.text, none⟩, ⟨11, "Q2", QType.multipleChoice, some "20"⟩]
        (fun _ => "hello") (fun qid => if qid == 11 then some 20 else none) =
      (.success 2, [⟨99, "2", 10, "hello"⟩, ⟨99, "2", 11, "20"⟩]) ∧
    gradeResponse
        [⟨10, "Q1", QType.text, none⟩, ⟨11, "Q2", QType.multipleChoice, some "20"⟩]
        [⟨20, 11, "Red"⟩, ⟨21, 11, "Blue"⟩] ⟨99, "2", 11, "20"⟩ =
      ("Red", "✅ Correta") ∧
    gradeResponse
        [⟨10, "Q1", QType.text, none⟩, ⟨11, "Q2", QType.multipleChoice, some "20"⟩]
        [⟨20, 11, "Red"⟩, ⟨21, 11, "Blue"⟩] ⟨99, "2", 10, "hello"⟩ =
      ("hello", "N/A") :=
  ⟨rfl, rfl, rfl, rfl⟩

/-- Claim C10 (implicit): the participant id recorded in a response is the
stringified number from the first pool, in catalog order, where the identity
holds a slot — later pools never contribute — and two distinct identities
holding the same number in different pools are mapped to the same
participant id, hence to the same answered-forms set. -/
theorem lookupParticipantId_conflation :
    (∀ (ms1 : List MeetingMeta) (m : MeetingMeta) (ms2 : List MeetingMeta)
        (tables : List (String × Pool)) (uid : String) (s : Slot),
        (∀ m1 ∈ ms1,
          (lookupTable tables m1.tableName).find? (fun t => t.userId == some uid) = none) →
        (lookupTable tables m.tableName).find? (fun t => t.userId == some uid) = some s →
        lookupParticipantId (ms1 ++ m :: ms2) tables uid =
          some (toString s.number, m.tableName)) ∧
    (∀ (mA mB : MeetingMeta) (tables : List (String × Pool)) (uid1 uid2 : String)
        (s1 s2 : Slot) (responses : List ResponseRow),
        uid1 ≠ uid2 →
        (lookupTable tables mA.tableName).find? (fun t => t.userId == some uid1) = some s1 →
        (lookupTable tables mA.tableName).find? (fun t => t.userId == some uid2) = none →
        (lookupTable tables mB.tableName).find? (fun t => t.userId == some uid2) = some s2 →
        s1.number = s2.number →
        lookupParticipantId [mA, mB] tables uid1 = some (toString s1.number, mA.tableName) ∧
        lookupParticipantId [mA, mB] tables uid2 = some (toString s1.number, mB.tableName) ∧
        getAnsweredForms responses (toString s1.number) =
          getAnsweredForms responses (toString s2.number)) := by
  constructor
  · intro ms1
    induction ms1 with
    | nil =>
      intro m ms2 tables uid s hall hfind
      rw [List.nil_append]
      simp only [lookupParticipantId]
      rw [hfind]
    | cons m1 rest ih =>
      intro m ms2 tables uid s hall hfind
      rw [List.cons_append]
      simp only [lookupParticipantId]
      rw [hall m1 (by simp)]
      exact ih m ms2 tables uid s (fun m2 hm2 => hall m2 (by simp [hm2])) hfind
  · intro mA mB tables uid1 uid2 s1 s2 responses hne h1 h2none h2 hnum
    refine ⟨?_, ?_, ?_⟩
    · simp only [lookupParticipantId]
      rw [h1]
    · simp only [lookupParticipantId]
      rw [h2none, h2, hnum]
    · rw [hnum]

/-- Witness for C10: identities "A" and "B" hold number 7 in the pools of
two different meetings and are both identified as participant "7". -/
theorem lookupParticipantId_conflation_witness :
    lookupParticipantId [⟨1, "a", "MA", 0, 9⟩, ⟨2, "b", "MB", 0, 9⟩]
        [("a", [⟨7, true, some 0, some "A"⟩]), ("b", [⟨7, true, some 0, some "B"⟩])]
        "A" = some ("7", "a") ∧
    lookupParticipantId [⟨1, "a", "MA", 0, 9⟩, ⟨2, "b", "MB", 0, 9⟩]
        [("a", [⟨7, true, some 0, some "A"⟩]), ("b", [⟨7, true, some 0, some "B"⟩])]
        "B" = some ("7", "b") ∧
    getAnsweredForms [⟨99, "7", 10, "x"⟩] "7" =
      getAnsweredForms [⟨99, "7", 10, "x"⟩] "7" :=
  lookupParticipantId_conflation.2 ⟨1, "a", "MA", 0, 9⟩ ⟨2, "b", "MB", 0, 9⟩
    [("a", [⟨7, true, some 0, some "A"⟩]), ("b", [⟨7, true, some 0, some "B"⟩])]
    "A" "B" ⟨7, true, some 0, some "A"⟩ ⟨7, true, some 0, some "B"⟩
    [⟨99, "7", 10, "x"⟩] (by decide) rfl rfl rfl rfl

end PrePost
